import Mathlib

/-!
Verification development for the `coldstar` secure signer.

The repository ships the C call-boundary header `src/secure_signer/include/signer.h`,
which fixes the three public operations (`signer_create_container`,
`signer_sign_transaction`, `signer_sign_direct`), the uniform `SignerResult`
structure with its error-code table (0 success, 1 null pointer, 2 invalid UTF-8,
3 base58/base64 decode error, 4 crypto failure, 5 serialization/format error),
and the container JSON shape {version, salt, nonce, ciphertext, public_key}.
The cryptographic core behind the header (secure buffers, KDF, AEAD, container
codec, signing engine, orchestrator) is not present in the sources, so it is
modelled here from the specification: cryptographic primitives are idealized
(collision-free) computable functions, randomness is an injective deterministic
generator driven by an explicit counter threaded through the state, and secure
buffers are an explicit heap of zeroize-on-destroy regions recorded in the
state together with a trace of cryptographic events (used to state that a
rejection happens before any cryptographic work).
-/

namespace ColdStar

/-- Byte strings are modelled as lists of naturals. -/
abbrev Bytes := List Nat

/-! ## Commodity codecs (UTF-8 validity, base58, base64)

The spec treats base58/base64 as commodity codecs and the FFI marshaling as an
external collaborator; they are modelled here as honest executable decoders so
that the error paths of the public operations are real. -/

/-- True for a UTF-8 continuation byte (0x80-0xBF). -/
def isCont (b : Nat) : Bool := 128 ≤ b && b ≤ 191

/-- Consume one well-formed UTF-8 scalar from the front of a byte list,
returning the remaining bytes, or `none` when the front is malformed
(including overlong forms and surrogate code points). -/
def utf8Step : List Nat → Option (List Nat)
  | [] => none
  | b :: rest =>
    if b ≤ 127 then some rest
    else if 194 ≤ b && b ≤ 223 then
      match rest with
      | b2 :: r => if isCont b2 then some r else none
      | [] => none
    else if b = 224 then
      match rest with
      | b2 :: b3 :: r => if (160 ≤ b2 && b2 ≤ 191) && isCont b3 then some r else none
      | _ => none
    else if (225 ≤ b && b ≤ 236) || b = 238 || b = 239 then
      match rest with
      | b2 :: b3 :: r => if isCont b2 && isCont b3 then some r else none
      | _ => none
    else if b = 237 then
      match rest with
      | b2 :: b3 :: r => if (128 ≤ b2 && b2 ≤ 159) && isCont b3 then some r else none
      | _ => none
    else if b = 240 then
      match rest with
      | b2 :: b3 :: b4 :: r =>
        if (144 ≤ b2 && b2 ≤ 191) && isCont b3 && isCont b4 then some r else none
      | _ => none
    else if 241 ≤ b && b ≤ 243 then
      match rest with
      | b2 :: b3 :: b4 :: r => if isCont b2 && isCont b3 && isCont b4 then some r else none
      | _ => none
    else if b = 244 then
      match rest with
      | b2 :: b3 :: b4 :: r =>
        if (128 ≤ b2 && b2 ≤ 143) && isCont b3 && isCont b4 then some r else none
      | _ => none
    else none

/-- Fuel-bounded UTF-8 validation loop; `utf8Step` consumes at least one byte,
so fuel equal to the length of the input suffices. -/
def validUtf8Fuel : Nat → List Nat → Bool
  | _, [] => true
  | 0, _ :: _ => false
  | fuel + 1, l =>
    match utf8Step l with
    | some r => validUtf8Fuel fuel r
    | none => false

/-- A byte list is valid UTF-8 when the step parser consumes it completely. -/
def validUtf8 (l : List Nat) : Bool := validUtf8Fuel l.length l

/-- ASCII codes of the base58 alphabet
`123456789ABCDEFGHJKLMNPQRSTUVWXYZabcdefghijkmnopqrstuvwxyz`. -/
def base58Alphabet : List Nat :=
  [49, 50, 51, 52, 53, 54, 55, 56, 57,
   65, 66, 67, 68, 69, 70, 71, 72, 74, 75, 76, 77, 78, 80, 81, 82, 83, 84,
   85, 86, 87, 88, 89, 90,
   97, 98, 99, 100, 101, 102, 103, 104, 105, 106, 107, 109, 110, 111, 112,
   113, 114, 115, 116, 117, 118, 119, 120, 121, 122]

/-- Digit value of one base58 character code, `none` for a character outside
the alphabet. -/
def b58Index (c : Nat) : Option Nat := base58Alphabet.findIdx? (fun x => x = c)

/-- Big-endian base-256 digits of `n`, computed with explicit structural fuel
(`[]` for zero). -/
def natToBytesBEAux : Nat → Nat → Bytes
  | 0, _ => []
  | fuel + 1, n => if n = 0 then [] else natToBytesBEAux fuel (n / 256) ++ [n % 256]

/-- Big-endian base-256 byte representation of a natural number. -/
def natToBytesBE (n : Nat) : Bytes := natToBytesBEAux n n

/-- Base58 decoding of a character-code list: every character must be in the
alphabet, leading `1` characters stand for leading zero bytes, the rest is
interpreted as a base-58 number. -/
def base58Decode (s : List Nat) : Option Bytes :=
  match s.mapM b58Index with
  | none => none
  | some ds =>
    let n := ds.foldl (fun acc d => acc * 58 + d) 0
    let leading := (s.takeWhile (fun c => c = 49)).length
    some (List.replicate leading 0 ++ natToBytesBE n)

/-- Digit value of one base64 character code (`A`-`Z`, `a`-`z`, `0`-`9`, `+`, `/`),
`none` otherwise. -/
def b64Index (c : Nat) : Option Nat :=
  if 65 ≤ c && c ≤ 90 then some (c - 65)
  else if 97 ≤ c && c ≤ 122 then some (c - 97 + 26)
  else if 48 ≤ c && c ≤ 57 then some (c - 48 + 52)
  else if c = 43 then some 62
  else if c = 47 then some 63
  else none

/-- Base64 decoding over four-character groups with trailing `=` padding
(character code 61); anything else is malformed. -/
def base64Decode : List Nat → Option Bytes
  | [] => some []
  | a :: b :: c :: d :: rest =>
    match b64Index a, b64Index b with
    | some x, some y =>
      if c = 61 then
        if d = 61 && rest.isEmpty then some [x * 4 + y / 16] else none
      else
        match b64Index c with
        | some z =>
          if d = 61 then
            if rest.isEmpty then some [x * 4 + y / 16, y % 16 * 16 + z / 4] else none
          else
            match b64Index d, base64Decode rest with
            | some w, some tail =>
              some ([x * 4 + y / 16, y % 16 * 16 + z / 4, z % 4 * 64 + w] ++ tail)
            | _, _ => none
        | none => none
    | _, _ => none
  | _ => none

/-! ## Cryptographic primitives

Modelled from the spec: the concrete KDF, AEAD and signature algorithm
identifiers are deliberately unspecified (§9 open question), so each primitive
is modelled as an idealized, collision-free computable function; the spec's
always-detect guarantees (wrong passphrase, bit-level tampering) are exactly
the guarantees of the ideal model. -/

/-- Modelled from the spec: the key derivation function (§4.2) — deterministic
in (passphrase, salt) and idealized as an injective length-prefixed pairing,
so distinct passphrases or salts always yield distinct derived keys. -/
def kdfDerive (passphrase salt : Bytes) : Bytes :=
  passphrase.length :: (passphrase ++ salt)

/-- Modelled from the spec: the body encoding used by the ideal AEAD — an
injective length-prefixed packing of key, nonce and plaintext. -/
def sealEnc (key nonce pt : Bytes) : Bytes :=
  key.length :: (key ++ nonce.length :: (nonce ++ pt))

/-- Modelled from the spec: AEAD `seal` (§4.3) — the ideal ciphertext is the
body encoding duplicated, so that any single-position change breaks the
self-authentication check performed by `aeadOpen`. -/
def aeadSeal (key nonce pt : Bytes) : Bytes :=
  sealEnc key nonce pt ++ sealEnc key nonce pt

/-- Parse one sealed body: expect the supplied key and nonce length-prefixed at
the front and return the remaining plaintext. -/
def parseSealed (key nonce : Bytes) (e : Bytes) : Option Bytes :=
  if e.take (key.length + 1) = key.length :: key
      ∧ (e.drop (key.length + 1)).take (nonce.length + 1) = nonce.length :: nonce then
    some ((e.drop (key.length + 1)).drop (nonce.length + 1))
  else none

/-- Modelled from the spec: AEAD `open` (§4.3) — fail-closed authenticated
decryption: the ciphertext must be an exact duplicate pair whose body carries
the supplied key and nonce; any mismatch yields `none` with no partial
plaintext. -/
def aeadOpen (key nonce ct : Bytes) : Option Bytes :=
  let half := ct.length / 2
  if ct.take half = ct.drop half then parseSealed key nonce (ct.take half) else none

/-- Modelled from the spec: the signing engine's public-key derivation
(§4.5) — a pure deterministic function of the private key. -/
def derivePublicKey (key : Bytes) : Bytes := 0 :: key

/-- Modelled from the spec: the signing engine's `sign` (§4.5) — a
deterministic function of private key and message. -/
def signBytes (key msg : Bytes) : Bytes := key.length :: (key ++ msg)

/-- Salt length of the container format (§3: fixed length, 16-32 bytes). -/
def SALT_LEN : Nat := 16

/-- Nonce length of the container format (§3: sized to the AEAD algorithm). -/
def NONCE_LEN : Nat := 12

/-- Modelled from the spec: the random generator behind fresh salts and nonces,
idealized as an injective deterministic generator driven by a counter, so two
draws with distinct counters are always distinct. -/
def genBytes (len ctr : Nat) : Bytes := ctr :: List.replicate (len - 1) 0

/-! ## Secure buffers, state and event trace -/

/-- A secure buffer (§4.1): its current contents, its size, and whether it is
still live (not yet destroyed). -/
structure SecBuf where
  data : Bytes
  size : Nat
  live : Bool
deriving DecidableEq, Repr

/-- One cryptographic event performed by an operation; rejection-before-crypto
claims are stated as the absence of new events. -/
inductive CEvent where
  | kdfEv
  | sealEv
  | openEv
  | signEv
deriving DecidableEq, Repr

/-- The ambient state threaded through every public operation: the secure-buffer
heap, the trace of cryptographic events, and the randomness counter. -/
structure SigState where
  bufs : List SecBuf
  events : List CEvent
  rng : Nat
deriving DecidableEq, Repr

/-- Allocate a fresh secure buffer holding `b`; returns its index and the new
state. -/
def allocBuf (b : Bytes) (st : SigState) : Nat × SigState :=
  (st.bufs.length, { st with bufs := st.bufs ++ [⟨b, b.length, true⟩] })

/-- Destroy a secure buffer: overwrite its contents with zeros and mark it
dead (§4.1: zeroize-then-release). -/
def destroyBuf (i : Nat) (st : SigState) : SigState :=
  { st with
    bufs := st.bufs.set i ⟨List.replicate ((st.bufs.getD i ⟨[], 0, false⟩).size) 0,
                            (st.bufs.getD i ⟨[], 0, false⟩).size, false⟩ }

/-- Record a cryptographic event in the trace. -/
def emit (e : CEvent) (st : SigState) : SigState :=
  { st with events := st.events ++ [e] }

/-! ## Result and container types (from `signer.h`) -/

/-- The closed error taxonomy (spec §7) mapped to the header's stable codes:
1 null-pointer argument, 2 invalid UTF-8, 3 base58/base64 decode error,
4 crypto operation failed, 5 container format/serialization error. -/
inductive SignerError where
  | missingArgument
  | invalidEncoding
  | decodeError
  | cryptoFailure
  | formatError
deriving DecidableEq, Repr

/-- The stable numeric code of an error kind (`signer.h` lines 38-45). -/
def SignerError.code : SignerError → Nat
  | .missingArgument => 1
  | .invalidEncoding => 2
  | .decodeError => 3
  | .cryptoFailure => 4
  | .formatError => 5

/-- The container envelope {version, salt, nonce, ciphertext, public_key}
(`signer.h` lines 58-65, spec §3); binary fields are kept as bytes, their
textual base64 framing being part of the excluded marshaling layer. -/
structure Container where
  version : Nat
  salt : Bytes
  nonce : Bytes
  ciphertext : Bytes
  public_key : Bytes
deriving DecidableEq, Repr

/-- The payload carried by a `SignerResult`: one of the three documented
success JSON shapes, or an error message naming the failure kind. -/
inductive Payload where
  | containerJson (c : Container)
  | signJson (signature : Bytes) (signed_transaction : Bytes) (public_key : Bytes)
  | directJson (signature : Bytes) (public_key : Bytes)
  | errorMsg (e : SignerError)
deriving DecidableEq, Repr

/-- The uniform result structure of `signer.h`: an error code and a payload. -/
structure SignerResult where
  error_code : Nat
  result : Payload
deriving DecidableEq, Repr

/-- The signature bytes carried by a success payload, if any. -/
def Payload.signatureOf : Payload → Option Bytes
  | .signJson s _ _ => some s
  | .directJson s _ => some s
  | _ => none

/-- The container carried by a `containerJson` payload, if any. -/
def Payload.containerOf : Payload → Option Container
  | .containerJson c => some c
  | _ => none

/-! ## The three public operations (orchestrator, spec §4.6)

Modelled from the spec: the orchestrator pipelines of §4.6 behind the header
prototypes of `signer.h`; a `none` argument models a NULL pointer at the
call boundary. -/

/-- Modelled from the spec: `signer_create_container` (§4.6 CreateContainer):
null and UTF-8 checks, base58 decode, key-length validation (32 or 64), then
secure-buffer allocation, fresh salt and nonce, KDF, AEAD seal, public-key
derivation, envelope construction, and destruction of every secure buffer. -/
def signer_create_container (private_key_b58 passphrase : Option Bytes)
    (st : SigState) : SignerResult × SigState :=
  match private_key_b58, passphrase with
  | none, _ => (⟨1, .errorMsg .missingArgument⟩, st)
  | _, none => (⟨1, .errorMsg .missingArgument⟩, st)
  | some pkB, some passB =>
    if validUtf8 pkB && validUtf8 passB then
      match base58Decode pkB with
      | none => (⟨3, .errorMsg .decodeError⟩, st)
      | some key =>
        if key.length = 32 ∨ key.length = 64 then
          let a1 := allocBuf key st
          let a2 := allocBuf passB a1.2
          let salt := genBytes SALT_LEN a2.2.rng
          let nonce := genBytes NONCE_LEN (a2.2.rng + 1)
          let st3 := { a2.2 with rng := a2.2.rng + 2 }
          let derived := kdfDerive passB salt
          let st4 := emit .kdfEv st3
          let a5 := allocBuf derived st4
          let ct := aeadSeal derived nonce key
          let st6 := emit .sealEv a5.2
          let c : Container := ⟨1, salt, nonce, ct, derivePublicKey key⟩
          let st7 := destroyBuf a5.1 (destroyBuf a2.1 (destroyBuf a1.1 st6))
          (⟨0, .containerJson c⟩, st7)
        else (⟨3, .errorMsg .decodeError⟩, st)
    else (⟨2, .errorMsg .invalidEncoding⟩, st)

/-- Modelled from the spec: `signer_sign_transaction` (§4.6 SignViaContainer):
null and UTF-8 checks, version gating before any other work, base64 decode of
the transaction, KDF with the stored salt, fail-closed AEAD open (wrong
passphrase and tampering both surface as crypto failure, code 4), signing,
and destruction of every secure buffer on every path. -/
def signer_sign_transaction (container : Option Container)
    (passphrase transaction_b64 : Option Bytes)
    (st : SigState) : SignerResult × SigState :=
  match container, passphrase, transaction_b64 with
  | none, _, _ => (⟨1, .errorMsg .missingArgument⟩, st)
  | _, none, _ => (⟨1, .errorMsg .missingArgument⟩, st)
  | _, _, none => (⟨1, .errorMsg .missingArgument⟩, st)
  | some c, some passB, some txB =>
    if validUtf8 passB && validUtf8 txB then
      if c.version = 1 then
        match base64Decode txB with
        | none => (⟨3, .errorMsg .decodeError⟩, st)
        | some txBytes =>
          let a1 := allocBuf passB st
          let derived := kdfDerive passB c.salt
          let st2 := emit .kdfEv a1.2
          let a3 := allocBuf derived st2
          let st4 := emit .openEv a3.2
          match aeadOpen derived c.nonce c.ciphertext with
          | none =>
            (⟨4, .errorMsg .cryptoFailure⟩, destroyBuf a3.1 (destroyBuf a1.1 st4))
          | some key =>
            let a5 := allocBuf key st4
            let st6 := emit .signEv a5.2
            let sig := signBytes key txBytes
            let st7 := destroyBuf a5.1 (destroyBuf a3.1 (destroyBuf a1.1 st6))
            (⟨0, .signJson sig (sig ++ txBytes) (derivePublicKey key)⟩, st7)
      else (⟨5, .errorMsg .formatError⟩, st)
    else (⟨2, .errorMsg .invalidEncoding⟩, st)

/-- Modelled from the spec: `signer_sign_direct` (§4.6 SignDirect): null and
UTF-8 checks, base58 decode, key-length validation, base64 decode of the
message, then signing from a secure buffer that is destroyed before return. -/
def signer_sign_direct (private_key_b58 message_b64 : Option Bytes)
    (st : SigState) : SignerResult × SigState :=
  match private_key_b58, message_b64 with
  | none, _ => (⟨1, .errorMsg .missingArgument⟩, st)
  | _, none => (⟨1, .errorMsg .missingArgument⟩, st)
  | some pkB, some msgB =>
    if validUtf8 pkB && validUtf8 msgB then
      match base58Decode pkB with
      | none => (⟨3, .errorMsg .decodeError⟩, st)
      | some key =>
        if key.length = 32 ∨ key.length = 64 then
          match base64Decode msgB with
          | none => (⟨3, .errorMsg .decodeError⟩, st)
          | some msgBytes =>
            let a1 := allocBuf key st
            let st2 := emit .signEv a1.2
            let sig := signBytes key msgBytes
            let st3 := destroyBuf a1.1 st2
            (⟨0, .directJson sig (derivePublicKey key)⟩, st3)
          else (⟨3, .errorMsg .decodeError⟩, st)
    else (⟨2, .errorMsg .invalidEncoding⟩, st)

/-- The heap of strings handed across the call boundary, for the
string-release surface. -/
abbrev StrHeap := List (Option Bytes)

/-- Modelled from the spec: `signer_free_string` (`signer.h` lines 119-124,
"Pointer to string (may be NULL)") — releasing a NULL pointer is a no-op,
releasing a live pointer clears its cell. -/
def signer_free_string (ptr : Option Nat) (h : StrHeap) : StrHeap :=
  match ptr with
  | none => h
  | some p => h.set p none

/-- Flip one bit of one byte of a byte string. -/
def flipBit (l : Bytes) (i j : Nat) : Bytes := l.set i ((l.getD i 0) ^^^ 2 ^ j)

/-- A payload of the documented container-creation success shape. -/
def isContainerPayload (pl : Payload) : Prop := ∃ c, pl = .containerJson c

/-- A payload of the documented transaction-signing success shape. -/
def isSignPayload (pl : Payload) : Prop := ∃ a b c, pl = .signJson a b c

/-- A payload of the documented direct-signing success shape. -/
def isDirectPayload (pl : Payload) : Prop := ∃ a b, pl = .directJson a b

/-- The uniform result contract of `signer.h`: code 0 means the payload is the
documented success JSON; any nonzero code is the stable code of one of the
closed set of error kinds (1-5) and carries an error-message payload. -/
def uniformResult (r : SignerResult) (ok : Payload → Prop) : Prop :=
  (r.error_code = 0 → ok r.result) ∧
  (r.error_code ≠ 0 → ∃ e : SignerError, r.result = .errorMsg e ∧
    r.error_code = e.code ∧ 1 ≤ e.code ∧ e.code ≤ 5)

/-- Every secure buffer in the state has been zeroized and destroyed. -/
def allZeroized (st : SigState) : Prop :=
  ∀ b ∈ st.bufs, b.live = false ∧ b.data = List.replicate b.size 0

/-! ## Lemmas about the idealized primitives -/

/-- Length-prefixed pairing is injective. -/
theorem lenPrefix_inj {a b a2 b2 : Bytes}
    (h : a.length :: (a ++ b) = a2.length :: (a2 ++ b2)) : a = a2 ∧ b = b2 := by
  obtain ⟨h1, h2⟩ := List.cons.inj h
  exact List.append_inj h2 h1

/-- The KDF is injective: distinct passphrases or salts give distinct keys. -/
theorem kdfDerive_inj {p s p2 s2 : Bytes}
    (h : kdfDerive p s = kdfDerive p2 s2) : p = p2 ∧ s = s2 :=
  lenPrefix_inj h

/-- The sealed-body encoding is injective in key, nonce and plaintext. -/
theorem sealEnc_inj {k n p k2 n2 p2 : Bytes}
    (h : sealEnc k n p = sealEnc k2 n2 p2) : k = k2 ∧ n = n2 ∧ p = p2 := by
  obtain ⟨hk, htail⟩ := lenPrefix_inj h
  obtain ⟨hn, hp⟩ := lenPrefix_inj htail
  exact ⟨hk, hn, hp⟩

/-- `aeadSeal` is injective in key, nonce and plaintext. -/
theorem aeadSeal_inj {k n p k2 n2 p2 : Bytes}
    (h : aeadSeal k n p = aeadSeal k2 n2 p2) : k = k2 ∧ n = n2 ∧ p = p2 := by
  have hlen : (sealEnc k n p).length = (sealEnc k2 n2 p2).length := by
    have := congrArg List.length h
    simp [aeadSeal] at this
    omega
  exact sealEnc_inj (List.append_inj h hlen).1

/-- The sealed body written as nested appends of its length-prefixed pieces. -/
theorem sealEnc_assoc (k n p : Bytes) :
    sealEnc k n p = (k.length :: k) ++ ((n.length :: n) ++ p) := by
  simp [sealEnc]

/-- Parsing a sealed body with the matching key and nonce recovers the
plaintext. -/
theorem parseSealed_seal (k n p : Bytes) : parseSealed k n (sealEnc k n p) = some p := by
  have t1 : ((k.length :: k) ++ ((n.length :: n) ++ p)).take (k.length + 1) =
      k.length :: k := List.take_left' (by simp)
  have t2 : ((k.length :: k) ++ ((n.length :: n) ++ p)).drop (k.length + 1) =
      (n.length :: n) ++ p := List.drop_left' (by simp)
  have t3 : ((n.length :: n) ++ p).take (n.length + 1) = n.length :: n :=
    List.take_left' (by simp)
  have t4 : ((n.length :: n) ++ p).drop (n.length + 1) = p := List.drop_left' (by simp)
  rw [parseSealed, sealEnc_assoc, t1, t2, t3, t4, if_pos ⟨rfl, rfl⟩]

/-- Parsing soundness: a successful parse means the body is exactly the sealed
encoding of the returned plaintext under the supplied key and nonce. -/
theorem parseSealed_sound {k n e p : Bytes}
    (h : parseSealed k n e = some p) : e = sealEnc k n p := by
  rw [parseSealed] at h
  by_cases hc : e.take (k.length + 1) = k.length :: k
      ∧ (e.drop (k.length + 1)).take (n.length + 1) = n.length :: n
  · rw [if_pos hc] at h
    have hp : (e.drop (k.length + 1)).drop (n.length + 1) = p := Option.some.inj h
    have hinner : e.drop (k.length + 1) = (n.length :: n) ++ p := by
      conv_lhs => rw [← List.take_append_drop (n.length + 1) (e.drop (k.length + 1))]
      rw [hc.2, hp]
    have houter : e = (k.length :: k) ++ ((n.length :: n) ++ p) := by
      conv_lhs => rw [← List.take_append_drop (k.length + 1) e]
      rw [hc.1, hinner]
    rw [houter, ← sealEnc_assoc]
  · rw [if_neg hc] at h
    exact absurd h (by simp)

/-- AEAD round trip: opening with the sealing key and nonce recovers the
plaintext. -/
theorem aeadOpen_seal (k n p : Bytes) : aeadOpen k n (aeadSeal k n p) = some p := by
  have hhalf : (aeadSeal k n p).length / 2 = (sealEnc k n p).length := by
    simp [aeadSeal]; omega
  simp only [aeadOpen, hhalf]
  rw [show aeadSeal k n p = sealEnc k n p ++ sealEnc k n p from rfl,
    List.take_left, List.drop_left, if_pos rfl]
  exact parseSealed_seal k n p

/-- AEAD soundness: a successful open means the ciphertext is exactly the seal
of the returned plaintext under the supplied key and nonce. -/
theorem aeadOpen_sound {k n ct p : Bytes}
    (h : aeadOpen k n ct = some p) : ct = aeadSeal k n p := by
  rw [aeadOpen] at h
  by_cases hdup : ct.take (ct.length / 2) = ct.drop (ct.length / 2)
  · rw [if_pos hdup] at h
    have hbody := parseSealed_sound h
    calc ct = ct.take (ct.length / 2) ++ ct.drop (ct.length / 2) :=
          (List.take_append_drop _ ct).symm
      _ = sealEnc k n p ++ sealEnc k n p := by rw [← hdup, hbody]
      _ = aeadSeal k n p := rfl
  · rw [if_neg hdup] at h; exact absurd h (by simp)

/-- Fail-closed open, wrong key: opening a seal with a different key always
fails. -/
theorem aeadOpen_wrong_key {k k2 : Bytes} (n p : Bytes) (hne : k2 ≠ k) :
    aeadOpen k2 n (aeadSeal k n p) = none := by
  cases h : aeadOpen k2 n (aeadSeal k n p) with
  | none => rfl
  | some p2 =>
    exact absurd (aeadSeal_inj (aeadOpen_sound h)).1.symm hne

/-- Fail-closed open, wrong nonce: opening a seal with a different nonce always
fails. -/
theorem aeadOpen_wrong_nonce {n n2 : Bytes} (k p : Bytes) (hne : n2 ≠ n) :
    aeadOpen k n2 (aeadSeal k n p) = none := by
  cases h : aeadOpen k n2 (aeadSeal k n p) with
  | none => rfl
  | some p2 =>
    exact absurd (aeadSeal_inj (aeadOpen_sound h)).2.1.symm hne

/-- Changing one position below `L` does not change the suffix from `L` on. -/
theorem drop_set_of_lt (l : Bytes) (i v L : Nat) (h : i < L) :
    (l.set i v).drop L = l.drop L := by
  apply List.ext_getElem?
  intro j
  rw [List.getElem?_drop, List.getElem?_drop, List.getElem?_set_ne]
  omega

/-- Changing one position at or above `L` does not change the first `L`
positions. -/
theorem take_set_of_le (l : Bytes) (i v L : Nat) (h : L ≤ i) :
    (l.set i v).take L = l.take L := by
  apply List.ext_getElem?
  intro j
  by_cases hj : j < L
  · rw [List.getElem?_take_of_lt hj, List.getElem?_take_of_lt hj, List.getElem?_set_ne]
    omega
  · have t1 : ((l.set i v).take L)[j]? = none := List.getElem?_eq_none (by simp; omega)
    have t2 : (l.take L)[j]? = none := List.getElem?_eq_none (by simp; omega)
    rw [t1, t2]

/-- Setting a position to a genuinely different value changes the list. -/
theorem set_ne_of_ne (l : Bytes) (i v : Nat) (hi : i < l.length)
    (hv : v ≠ l.getD i 0) : l.set i v ≠ l := by
  intro h
  apply hv
  have h1 : (l.set i v)[i]? = l[i]? := by rw [h]
  rw [List.getElem?_set_eq_of_lt v hi, List.getElem?_eq_getElem hi] at h1
  have h2 := Option.some.inj h1
  rw [List.getD_eq_getElem l 0 hi]
  exact h2

/-- A duplicated list with one position genuinely changed is never again a
duplicated list of the same total length. -/
theorem dup_set_eq {e e2 : Bytes} {i v : Nat} (hL : e2.length = e.length)
    (h : (e ++ e).set i v = e2 ++ e2) (hi : i < (e ++ e).length)
    (hv : v ≠ (e ++ e).getD i 0) : False := by
  have he2 : e2 = e := by
    by_cases hcase : i < e.length
    · have d1 : ((e ++ e).set i v).drop e.length = (e ++ e).drop e.length :=
        drop_set_of_lt _ _ _ _ hcase
      have d3 : (e2 ++ e2).drop e.length = e2 := by
        rw [← hL]; exact List.drop_left e2 e2
      rw [h, d3, List.drop_left] at d1
      exact d1
    · have d1 : ((e ++ e).set i v).take e.length = (e ++ e).take e.length :=
        take_set_of_le _ _ _ _ (by omega)
      have d3 : (e2 ++ e2).take e.length = e2 := by
        rw [← hL]; exact List.take_left e2 e2
      rw [h, d3, List.take_left] at d1
      exact d1
  rw [he2] at h
  exact set_ne_of_ne (e ++ e) i v hi hv h

/-- Fail-closed open under tampering: changing any single position of a valid
ciphertext to a different value makes `aeadOpen` fail with the correct key and
nonce. -/
theorem aeadOpen_tampered (k n p : Bytes) (i v : Nat)
    (hi : i < (aeadSeal k n p).length) (hv : v ≠ (aeadSeal k n p).getD i 0) :
    aeadOpen k n ((aeadSeal k n p).set i v) = none := by
  cases h : aeadOpen k n ((aeadSeal k n p).set i v) with
  | none => rfl
  | some p2 =>
    exfalso
    have hsound := aeadOpen_sound h
    have hL : (sealEnc k n p2).length = (sealEnc k n p).length := by
      have hlen := congrArg List.length hsound
      simp [aeadSeal] at hlen
      omega
    exact dup_set_eq hL hsound hi hv

/-- Flipping the `j`-th bit of a natural number changes it. -/
theorem xor_pow_ne (x j : Nat) : x ^^^ 2 ^ j ≠ x := by
  intro h
  have h2 : (x ^^^ 2 ^ j).testBit j = !x.testBit j := by simp [Nat.testBit_xor]
  rw [h] at h2
  exact (Bool.not_ne_self _ h2.symm).elim

/-- Flipping a bit inside the byte string changes it. -/
theorem flipBit_ne (l : Bytes) (i j : Nat) (hi : i < l.length) : flipBit l i j ≠ l :=
  set_ne_of_ne l i _ hi (xor_pow_ne _ j)

/-- The injective random generator: distinct counters give distinct draws. -/
theorem genBytes_inj {len a b : Nat} (h : genBytes len a = genBytes len b) : a = b :=
  (List.cons.inj h).1

/-! ## Symbolic evaluation of the public operations -/

/-- Successful container creation: the returned envelope is version 1, carries
the two fresh draws as salt and nonce, the AEAD seal of the key under the
derived key, and the derived public key. -/
theorem create_success_fst (s p k : Bytes) (st : SigState)
    (hu1 : validUtf8 s = true) (hu2 : validUtf8 p = true)
    (hs : base58Decode s = some k) (hk : k.length = 32 ∨ k.length = 64) :
    (signer_create_container (some s) (some p) st).1 =
      ⟨0, .containerJson ⟨1, genBytes SALT_LEN st.rng, genBytes NONCE_LEN (st.rng + 1),
        aeadSeal (kdfDerive p (genBytes SALT_LEN st.rng))
          (genBytes NONCE_LEN (st.rng + 1)) k,
        derivePublicKey k⟩⟩ := by
  simp only [signer_create_container, hu1, hu2, Bool.and_self, if_true, hs]
  rw [if_pos hk]
  simp [allocBuf, emit]

/-- Successful container creation advances the randomness counter by two (one
draw for the salt, one for the nonce). -/
theorem create_success_rng (s p k : Bytes) (st : SigState)
    (hu1 : validUtf8 s = true) (hu2 : validUtf8 p = true)
    (hs : base58Decode s = some k) (hk : k.length = 32 ∨ k.length = 64) :
    ((signer_create_container (some s) (some p) st).2).rng = st.rng + 2 := by
  simp only [signer_create_container, hu1, hu2, Bool.and_self, if_true, hs]
  rw [if_pos hk]
  simp [allocBuf, emit, destroyBuf]

/-- Signing through a version-1 container whose ciphertext opens to `k`:
the result is the deterministic signature of the decoded transaction under
`k`, together with the signed transaction and the derived public key. -/
theorem signTx_open_some (salt nonce ct pub p t k m : Bytes) (st : SigState)
    (hu2 : validUtf8 p = true) (hut : validUtf8 t = true)
    (hb64 : base64Decode t = some m)
    (hopen : aeadOpen (kdfDerive p salt) nonce ct = some k) :
    (signer_sign_transaction (some ⟨1, salt, nonce, ct, pub⟩) (some p) (some t) st).1 =
      ⟨0, .signJson (signBytes k m) (signBytes k m ++ m) (derivePublicKey k)⟩ := by
  simp only [signer_sign_transaction, hu2, hut, Bool.and_self, if_true, hb64, hopen]

/-- Signing through a version-1 container whose ciphertext fails to open:
the uniform crypto failure, code 4 (wrong passphrase and tampering are
indistinguishable by design). -/
theorem signTx_open_none (salt nonce ct pub p t : Bytes) (st : SigState)
    (hu2 : validUtf8 p = true) (hut : validUtf8 t = true)
    (hb64 : ∃ m, base64Decode t = some m)
    (hopen : aeadOpen (kdfDerive p salt) nonce ct = none) :
    (signer_sign_transaction (some ⟨1, salt, nonce, ct, pub⟩) (some p) (some t) st).1 =
      ⟨4, .errorMsg .cryptoFailure⟩ := by
  obtain ⟨m, hm⟩ := hb64
  simp only [signer_sign_transaction, hu2, hut, Bool.and_self, if_true, hm, hopen]

/-- Successful direct signing: the deterministic signature of the decoded
message under the decoded key, with the derived public key. -/
theorem direct_success_fst (s t k m : Bytes) (st : SigState)
    (hu1 : validUtf8 s = true) (hut : validUtf8 t = true)
    (hs : base58Decode s = some k) (hk : k.length = 32 ∨ k.length = 64)
    (hb64 : base64Decode t = some m) :
    (signer_sign_direct (some s) (some t) st).1 =
      ⟨0, .directJson (signBytes k m) (derivePublicKey k)⟩ := by
  simp only [signer_sign_direct, hu1, hut, Bool.and_self, if_true, hs]
  rw [if_pos hk]
  simp only [hb64]

/-- An error result with matching kind and code satisfies the uniform result
contract. -/
theorem uniformResult_err (e : SignerError) (ok : Payload → Prop) :
    uniformResult ⟨e.code, .errorMsg e⟩ ok := by
  constructor
  · intro h
    exfalso
    cases e <;> simp [SignerError.code] at h
  · intro _
    exact ⟨e, rfl, rfl, by cases e <;> simp [SignerError.code],
      by cases e <;> simp [SignerError.code]⟩

/-- A code-0 result with a success payload satisfies the uniform result
contract. -/
theorem uniformResult_ok {pl : Payload} (ok : Payload → Prop) (h : ok pl) :
    uniformResult ⟨0, pl⟩ ok :=
  ⟨fun _ => h, fun h0 => absurd rfl h0⟩

/-- `signer_create_container` always returns a uniform result: success carries
a container payload, failure carries an error kind with its stable code. -/
theorem create_uniform (pk pass : Option Bytes) (st : SigState) :
    uniformResult (signer_create_container pk pass st).1 isContainerPayload := by
  rcases pk with _ | pkB <;> rcases pass with _ | passB
  · exact uniformResult_err .missingArgument _
  · exact uniformResult_err .missingArgument _
  · exact uniformResult_err .missingArgument _
  simp only [signer_create_container]
  split
  · split
    · exact uniformResult_err .decodeError _
    · split
      · exact uniformResult_ok _ ⟨_, rfl⟩
      · exact uniformResult_err .decodeError _
  · exact uniformResult_err .invalidEncoding _

/-- `signer_sign_transaction` always returns a uniform result. -/
theorem signTx_uniform (cont : Option Container) (pass tx : Option Bytes)
    (st : SigState) :
    uniformResult (signer_sign_transaction cont pass tx st).1 isSignPayload := by
  rcases cont with _ | c <;> rcases pass with _ | passB <;> rcases tx with _ | txB
  case none.none.none | none.none.some | none.some.none | none.some.some =>
    exact uniformResult_err .missingArgument _
  case some.none.none | some.none.some | some.some.none =>
    exact uniformResult_err .missingArgument _
  simp only [signer_sign_transaction]
  split
  · split
    · split
      · exact uniformResult_err .decodeError _
      · split
        · exact uniformResult_err .cryptoFailure _
        · exact uniformResult_ok _ ⟨_, _, _, rfl⟩
    · exact uniformResult_err .formatError _
  · exact uniformResult_err .invalidEncoding _

/-- `signer_sign_direct` always returns a uniform result. -/
theorem direct_uniform (pk msg : Option Bytes) (st : SigState) :
    uniformResult (signer_sign_direct pk msg st).1 isDirectPayload := by
  rcases pk with _ | pkB <;> rcases msg with _ | msgB
  · exact uniformResult_err .missingArgument _
  · exact uniformResult_err .missingArgument _
  · exact uniformResult_err .missingArgument _
  simp only [signer_sign_direct]
  split
  · split
    · exact uniformResult_err .decodeError _
    · split
      · split
        · exact uniformResult_err .decodeError _
        · exact uniformResult_ok _ ⟨_, _, rfl⟩
      · exact uniformResult_err .decodeError _
  · exact uniformResult_err .invalidEncoding _

/-! ## The claims -/

/-- C1: For every valid private key (32 or 64 raw bytes, base58-encoded), every
passphrase, and every message, signing via a container created from that key
and passphrase yields the same signature as signing directly with the key:
signing through `signer_create_container`'s output with the same passphrase
succeeds and returns exactly the signature bytes that `signer_sign_direct`
returns for the same key and message. -/
theorem C1_sign_roundtrip (s p t k m : Bytes) (stA stB stC : SigState)
    (hu1 : validUtf8 s = true) (hu2 : validUtf8 p = true) (hut : validUtf8 t = true)
    (hs : base58Decode s = some k) (hk : k.length = 32 ∨ k.length = 64)
    (hb64 : base64Decode t = some m) :
    ∃ c : Container,
      (signer_create_container (some s) (some p) stA).1 = ⟨0, .containerJson c⟩ ∧
      (signer_sign_transaction (some c) (some p) (some t) stB).1.error_code = 0 ∧
      (signer_sign_direct (some s) (some t) stC).1.error_code = 0 ∧
      (signer_sign_transaction (some c) (some p) (some t) stB).1.result.signatureOf =
        (signer_sign_direct (some s) (some t) stC).1.result.signatureOf ∧
      (signer_sign_direct (some s) (some t) stC).1.result.signatureOf =
        some (signBytes k m) := by
  have h1 := signTx_open_some (genBytes SALT_LEN stA.rng) (genBytes NONCE_LEN (stA.rng + 1))
    (aeadSeal (kdfDerive p (genBytes SALT_LEN stA.rng)) (genBytes NONCE_LEN (stA.rng + 1)) k)
    (derivePublicKey k) p t k m stB hu2 hut hb64 (aeadOpen_seal _ _ _)
  have h2 := direct_success_fst s t k m stC hu1 hut hs hk hb64
  exact ⟨_, create_success_fst s p k stA hu1 hu2 hs hk,
    by rw [h1], by rw [h2], by rw [h1, h2]; rfl, by rw [h2]; rfl⟩

/-- C2: For every container produced by `signer_create_container` with some
passphrase `p`, and for every passphrase different from `p`, signing through
that container with the other passphrase returns the crypto-failure kind
(code 4) with an error-message payload — never a signature. -/
theorem C2_wrong_passphrase (s p p2 t k : Bytes) (c : Container) (stA stB : SigState)
    (hu1 : validUtf8 s = true) (hu2 : validUtf8 p = true)
    (hu3 : validUtf8 p2 = true) (hut : validUtf8 t = true)
    (hs : base58Decode s = some k) (hk : k.length = 32 ∨ k.length = 64)
    (hb64 : ∃ m, base64Decode t = some m) (hne : p2 ≠ p)
    (hC : (signer_create_container (some s) (some p) stA).1 = ⟨0, .containerJson c⟩) :
    (signer_sign_transaction (some c) (some p2) (some t) stB).1 =
      ⟨4, .errorMsg .cryptoFailure⟩ := by
  rw [create_success_fst s p k stA hu1 hu2 hs hk] at hC
  injection hC with hcode hpl
  injection hpl with hc
  subst hc
  have hkne : kdfDerive p2 (genBytes SALT_LEN stA.rng) ≠
      kdfDerive p (genBytes SALT_LEN stA.rng) := fun h => hne (kdfDerive_inj h).1
  exact signTx_open_none _ _ _ _ p2 t stB hu3 hut hb64 (aeadOpen_wrong_key _ _ hkne)

/-- C3: For every container produced by `signer_create_container`, flipping any
single bit in the container's ciphertext field or nonce field before calling
`signer_sign_transaction` with the correct passphrase always yields the
crypto-failure kind (code 4), with no partial plaintext released. -/
theorem C3_tamper_detection (s p t k : Bytes) (c : Container) (i j i2 j2 : Nat)
    (stA stB stC : SigState)
    (hu1 : validUtf8 s = true) (hu2 : validUtf8 p = true) (hut : validUtf8 t = true)
    (hs : base58Decode s = some k) (hk : k.length = 32 ∨ k.length = 64)
    (hb64 : ∃ m, base64Decode t = some m)
    (hC : (signer_create_container (some s) (some p) stA).1 = ⟨0, .containerJson c⟩)
    (hi : i < c.ciphertext.length) (hi2 : i2 < c.nonce.length) :
    (signer_sign_transaction
        (some ⟨c.version, c.salt, c.nonce, flipBit c.ciphertext i j, c.public_key⟩)
        (some p) (some t) stB).1 = ⟨4, .errorMsg .cryptoFailure⟩ ∧
    (signer_sign_transaction
        (some ⟨c.version, c.salt, flipBit c.nonce i2 j2, c.ciphertext, c.public_key⟩)
        (some p) (some t) stC).1 = ⟨4, .errorMsg .cryptoFailure⟩ := by
  rw [create_success_fst s p k stA hu1 hu2 hs hk] at hC
  injection hC with hcode hpl
  injection hpl with hc
  subst hc
  constructor
  · exact signTx_open_none _ _ _ _ p t stB hu2 hut hb64
      (aeadOpen_tampered _ _ _ i _ hi (xor_pow_ne _ j))
  · exact signTx_open_none _ _ _ _ p t stC hu2 hut hb64
      (aeadOpen_wrong_nonce _ _ (flipBit_ne _ i2 j2 hi2))

/-- C4: `signer_sign_direct` is deterministic: for every private key and
message, two calls with identical inputs — in arbitrary and possibly different
ambient states — return the identical result, hence byte-identical signatures
and the same derived public key. -/
theorem C4_direct_deterministic (pk msg : Option Bytes) (st1 st2 : SigState) :
    (signer_sign_direct pk msg st1).1 = (signer_sign_direct pk msg st2).1 := by
  cases pk <;> cases msg <;>
    (simp only [signer_sign_direct]; repeat first | rfl | split)

/-- C5: For every base58 private-key input that decodes to a byte length other
than 32 or 64, `signer_create_container` and `signer_sign_direct` return the
decode-error kind (code 3), and the state — secure-buffer heap, event trace
and randomness counter — is untouched, so the rejection happens before any key
derivation, encryption, or signing. -/
theorem C5_keylen_validation (s p t k : Bytes) (st1 st2 : SigState)
    (hu1 : validUtf8 s = true) (hu2 : validUtf8 p = true) (hut : validUtf8 t = true)
    (hs : base58Decode s = some k) (h32 : k.length ≠ 32) (h64 : k.length ≠ 64) :
    signer_create_container (some s) (some p) st1 = (⟨3, .errorMsg .decodeError⟩, st1) ∧
    signer_sign_direct (some s) (some t) st2 = (⟨3, .errorMsg .decodeError⟩, st2) := by
  have hor : ¬(k.length = 32 ∨ k.length = 64) := by
    intro h
    cases h with
    | inl h => exact h32 h
    | inr h => exact h64 h
  constructor
  · simp only [signer_create_container, hu1, hu2, Bool.and_self, if_true, hs]
    rw [if_neg hor]
  · simp only [signer_sign_direct, hu1, hut, Bool.and_self, if_true, hs]
    rw [if_neg hor]

/-- C6: For every container whose version field is an unrecognized value
(anything other than the supported version 1), `signer_sign_transaction`
rejects it with the format-error kind (code 5) whatever the other fields hold,
and the state — secure-buffer heap, event trace and randomness counter — is
untouched, so the version is decided before any other field is interpreted and
before any cryptographic work. -/
theorem C6_version_gating (c : Container) (p t : Bytes) (st : SigState)
    (hv : c.version ≠ 1) (hu2 : validUtf8 p = true) (hut : validUtf8 t = true) :
    signer_sign_transaction (some c) (some p) (some t) st =
      (⟨5, .errorMsg .formatError⟩, st) := by
  simp only [signer_sign_transaction, hu2, hut, Bool.and_self, if_true]
  rw [if_neg hv]

/-- C8: Freshness of salt and nonce: two successive `signer_create_container`
calls with the same key and passphrase — the second running in the state the
first returned — produce containers with different salts and different nonces,
and therefore different ciphertexts, yet both containers decrypt (with the
same passphrase) to the same private key. -/
theorem C8_freshness (s p k : Bytes) (stA : SigState) (c1 c2 : Container)
    (hu1 : validUtf8 s = true) (hu2 : validUtf8 p = true)
    (hs : base58Decode s = some k) (hk : k.length = 32 ∨ k.length = 64)
    (h1 : (signer_create_container (some s) (some p) stA).1 = ⟨0, .containerJson c1⟩)
    (h2 : (signer_create_container (some s) (some p)
            ((signer_create_container (some s) (some p) stA).2)).1 =
          ⟨0, .containerJson c2⟩) :
    c1.salt ≠ c2.salt ∧ c1.nonce ≠ c2.nonce ∧ c1.ciphertext ≠ c2.ciphertext ∧
    aeadOpen (kdfDerive p c1.salt) c1.nonce c1.ciphertext = some k ∧
    aeadOpen (kdfDerive p c2.salt) c2.nonce c2.ciphertext = some k := by
  rw [create_success_fst s p k stA hu1 hu2 hs hk] at h1
  rw [create_success_fst s p k _ hu1 hu2 hs hk,
    create_success_rng s p k stA hu1 hu2 hs hk] at h2
  injection h1 with hcode1 hpl1
  injection hpl1 with hc1
  injection h2 with hcode2 hpl2
  injection hpl2 with hc2
  subst hc1
  subst hc2
  refine ⟨?_, ?_, ?_, aeadOpen_seal _ _ _, aeadOpen_seal _ _ _⟩
  · intro h
    have := genBytes_inj h
    omega
  · intro h
    have := genBytes_inj h
    omega
  · intro h
    have hnn := (aeadSeal_inj h).2.1
    have := genBytes_inj hnn
    omega

/-- C7: Every public operation returns a uniform (error_code, payload) pair:
code 0 means the payload is the documented success JSON of that operation, any
nonzero code is the stable code of one of the closed set of taxonomy kinds
(1-5); in particular a null/absent argument yields code 1 (missing argument),
distinct from malformed text content which yields code 2 (invalid encoding). -/
theorem C7_uniform_results (pk pass tx msg : Option Bytes) (cont : Option Container)
    (st : SigState) :
    uniformResult (signer_create_container pk pass st).1 isContainerPayload ∧
    uniformResult (signer_sign_transaction cont pass tx st).1 isSignPayload ∧
    uniformResult (signer_sign_direct pk msg st).1 isDirectPayload ∧
    (pk = none ∨ pass = none →
      (signer_create_container pk pass st).1 = ⟨1, .errorMsg .missingArgument⟩) ∧
    (∀ a b, pk = some a → pass = some b → (validUtf8 a && validUtf8 b) = false →
      (signer_create_container pk pass st).1 = ⟨2, .errorMsg .invalidEncoding⟩) := by
  refine ⟨create_uniform pk pass st, signTx_uniform cont pass tx st,
    direct_uniform pk msg st, ?_, ?_⟩
  · intro h
    rcases h with h | h
    · subst h
      rcases pass with _ | passB <;> rfl
    · subst h
      rcases pk with _ | pkB <;> rfl
  · intro a b ha hb hval
    subst ha
    subst hb
    simp only [signer_create_container, hval, Bool.false_eq_true, if_false]

/-- C9: After any of the three operations completes — on success and on every
failure path alike — every secure buffer allocated during the operation has
been overwritten with zeros and destroyed before the operation returns:
running any operation from a state with an empty buffer heap leaves only dead,
zero-filled buffers in the final state. -/
theorem C9_zeroization (pk pass tx msg : Option Bytes) (cont : Option Container)
    (es : List CEvent) (rg : Nat) :
    allZeroized (signer_create_container pk pass ⟨[], es, rg⟩).2 ∧
    allZeroized (signer_sign_transaction cont pass tx ⟨[], es, rg⟩).2 ∧
    allZeroized (signer_sign_direct pk msg ⟨[], es, rg⟩).2 := by
  refine ⟨?_, ?_, ?_⟩
  · rcases pk with _ | pkB <;> rcases pass with _ | passB
    · simp [signer_create_container, allZeroized]
    · simp [signer_create_container, allZeroized]
    · simp [signer_create_container, allZeroized]
    · simp only [signer_create_container]
      split
      · split
        · simp [signer_create_container, allZeroized]
        · split
          · simp [allocBuf, emit, destroyBuf, allZeroized, List.getD]
          · simp [signer_create_container, allZeroized]
      · simp [signer_create_container, allZeroized]
  · rcases cont with _ | c <;> rcases pass with _ | passB <;> rcases tx with _ | txB
    case none.none.none | none.none.some | none.some.none | none.some.some =>
      simp [signer_sign_transaction, allZeroized]
    case some.none.none | some.none.some | some.some.none =>
      simp [signer_sign_transaction, allZeroized]
    simp only [signer_sign_transaction]
    split
    · split
      · split
        · simp [signer_sign_transaction, allZeroized]
        · split
          · simp [allocBuf, emit, destroyBuf, allZeroized, List.getD]
          · simp [allocBuf, emit, destroyBuf, allZeroized, List.getD]
      · simp [signer_sign_transaction, allZeroized]
    · simp [signer_sign_transaction, allZeroized]
  · rcases pk with _ | pkB <;> rcases msg with _ | msgB
    · simp [signer_sign_direct, allZeroized]
    · simp [signer_sign_direct, allZeroized]
    · simp [signer_sign_direct, allZeroized]
    · simp only [signer_sign_direct]
      split
      · split
        · simp [signer_sign_direct, allZeroized]
        · split
          · split
            · simp [signer_sign_direct, allZeroized]
            · simp [allocBuf, emit, destroyBuf, allZeroized, List.getD]
          · simp [signer_sign_direct, allZeroized]
      · simp [signer_sign_direct, allZeroized]

/-- C10: Calling `signer_free_string` with a NULL pointer is accepted and is a
safe no-op: for the NULL input the function returns without error and without
changing the string heap. -/
theorem C10_free_string_null (h : StrHeap) : signer_free_string none h = h := rfl

/-! ## Concrete witnesses

Each witness instantiates its claim's theorem on the concrete inputs: the
32-byte all-zero key encoded in base58 as thirty-two `1` characters
(character code 49), the passphrase "pw" (`[112, 119]`), and the empty
base64 message. -/

/-- Witness for C1 at the concrete key, passphrase and message. -/
theorem C1_sign_roundtrip_witness :
    ∃ c : Container,
      (signer_create_container (some (List.replicate 32 49)) (some [112, 119])
        ⟨[], [], 0⟩).1 = ⟨0, .containerJson c⟩ ∧
      (signer_sign_transaction (some c) (some [112, 119]) (some [])
        ⟨[], [], 0⟩).1.error_code = 0 ∧
      (signer_sign_direct (some (List.replicate 32 49)) (some [])
        ⟨[], [], 0⟩).1.error_code = 0 ∧
      (signer_sign_transaction (some c) (some [112, 119]) (some [])
          ⟨[], [], 0⟩).1.result.signatureOf =
        (signer_sign_direct (some (List.replicate 32 49)) (some [])
          ⟨[], [], 0⟩).1.result.signatureOf ∧
      (signer_sign_direct (some (List.replicate 32 49)) (some [])
          ⟨[], [], 0⟩).1.result.signatureOf =
        some (signBytes (List.replicate 32 0) []) :=
  C1_sign_roundtrip (List.replicate 32 49) [112, 119] [] (List.replicate 32 0) []
    ⟨[], [], 0⟩ ⟨[], [], 0⟩ ⟨[], [], 0⟩
    (by decide) (by decide) (by decide) (by decide) (by decide) (by decide)

/-- Witness for C2: the concrete container opened with the passphrase "p"
instead of "pw" is rejected with code 4. -/
theorem C2_wrong_passphrase_witness :
    (signer_sign_transaction
        (some ((signer_create_container (some (List.replicate 32 49)) (some [112, 119])
          ⟨[], [], 0⟩).1.result.containerOf.getD ⟨0, [], [], [], []⟩))
        (some [112]) (some []) ⟨[], [], 0⟩).1 = ⟨4, .errorMsg .cryptoFailure⟩ :=
  C2_wrong_passphrase (List.replicate 32 49) [112, 119] [112] [] (List.replicate 32 0)
    ((signer_create_container (some (List.replicate 32 49)) (some [112, 119])
      ⟨[], [], 0⟩).1.result.containerOf.getD ⟨0, [], [], [], []⟩)
    ⟨[], [], 0⟩ ⟨[], [], 0⟩
    (by decide) (by decide) (by decide) (by decide) (by decide) (by decide)
    ⟨[], by decide⟩ (by decide) (by decide)

/-- Witness for C3: flipping bit 0 of byte 0 of the concrete container's
ciphertext, or of its nonce, is rejected with code 4. -/
theorem C3_tamper_detection_witness :
    (signer_sign_transaction
        (some ⟨((signer_create_container (some (List.replicate 32 49)) (some [112, 119])
            ⟨[], [], 0⟩).1.result.containerOf.getD ⟨0, [], [], [], []⟩).version,
          ((signer_create_container (some (List.replicate 32 49)) (some [112, 119])
            ⟨[], [], 0⟩).1.result.containerOf.getD ⟨0, [], [], [], []⟩).salt,
          ((signer_create_container (some (List.replicate 32 49)) (some [112, 119])
            ⟨[], [], 0⟩).1.result.containerOf.getD ⟨0, [], [], [], []⟩).nonce,
          flipBit ((signer_create_container (some (List.replicate 32 49)) (some [112, 119])
            ⟨[], [], 0⟩).1.result.containerOf.getD ⟨0, [], [], [], []⟩).ciphertext 0 0,
          ((signer_create_container (some (List.replicate 32 49)) (some [112, 119])
            ⟨[], [], 0⟩).1.result.containerOf.getD ⟨0, [], [], [], []⟩).public_key⟩)
        (some [112, 119]) (some []) ⟨[], [], 0⟩).1 = ⟨4, .errorMsg .cryptoFailure⟩ ∧
    (signer_sign_transaction
        (some ⟨((signer_create_container (some (List.replicate 32 49)) (some [112, 119])
            ⟨[], [], 0⟩).1.result.containerOf.getD ⟨0, [], [], [], []⟩).version,
          ((signer_create_container (some (List.replicate 32 49)) (some [112, 119])
            ⟨[], [], 0⟩).1.result.containerOf.getD ⟨0, [], [], [], []⟩).salt,
          flipBit ((signer_create_container (some (List.replicate 32 49)) (some [112, 119])
            ⟨[], [], 0⟩).1.result.containerOf.getD ⟨0, [], [], [], []⟩).nonce 0 0,
          ((signer_create_container (some (List.replicate 32 49)) (some [112, 119])
            ⟨[], [], 0⟩).1.result.containerOf.getD ⟨0, [], [], [], []⟩).ciphertext,
          ((signer_create_container (some (List.replicate 32 49)) (some [112, 119])
            ⟨[], [], 0⟩).1.result.containerOf.getD ⟨0, [], [], [], []⟩).public_key⟩)
        (some [112, 119]) (some []) ⟨[], [], 0⟩).1 = ⟨4, .errorMsg .cryptoFailure⟩ :=
  C3_tamper_detection (List.replicate 32 49) [112, 119] [] (List.replicate 32 0)
    ((signer_create_container (some (List.replicate 32 49)) (some [112, 119])
      ⟨[], [], 0⟩).1.result.containerOf.getD ⟨0, [], [], [], []⟩)
    0 0 0 0 ⟨[], [], 0⟩ ⟨[], [], 0⟩ ⟨[], [], 0⟩
    (by decide) (by decide) (by decide) (by decide) (by decide)
    ⟨[], by decide⟩ (by decide) (by decide) (by decide)

/-- Witness for C5: the base58 input "1" decodes to the single byte 0, whose
length 1 is neither 32 nor 64, and both operations reject it with code 3
leaving the state untouched. -/
theorem C5_keylen_validation_witness :
    signer_create_container (some [49]) (some [112, 119]) ⟨[], [], 7⟩ =
      (⟨3, .errorMsg .decodeError⟩, ⟨[], [], 7⟩) ∧
    signer_sign_direct (some [49]) (some []) ⟨[], [], 7⟩ =
      (⟨3, .errorMsg .decodeError⟩, ⟨[], [], 7⟩) :=
  C5_keylen_validation [49] [112, 119] [] [0] ⟨[], [], 7⟩ ⟨[], [], 7⟩
    (by decide) (by decide) (by decide) (by decide) (by decide) (by decide)

/-- Witness for C6: a container with version 2 and otherwise empty fields is
rejected with code 5 and the state is untouched. -/
theorem C6_version_gating_witness :
    signer_sign_transaction (some ⟨2, [], [], [], []⟩) (some [112, 119]) (some [])
        ⟨[], [], 3⟩ = (⟨5, .errorMsg .formatError⟩, ⟨[], [], 3⟩) :=
  C6_version_gating ⟨2, [], [], [], []⟩ [112, 119] [] ⟨[], [], 3⟩
    (by decide) (by decide) (by decide)

/-- Witness for C7: a NULL key argument yields code 1 while a non-UTF-8 key
argument yields code 2. -/
theorem C7_uniform_results_witness :
    (signer_create_container none (some []) ⟨[], [], 0⟩).1 =
      ⟨1, .errorMsg .missingArgument⟩ ∧
    (signer_create_container (some [255]) (some []) ⟨[], [], 0⟩).1 =
      ⟨2, .errorMsg .invalidEncoding⟩ :=
  ⟨(C7_uniform_results none (some []) none none none ⟨[], [], 0⟩).2.2.2.1 (Or.inl rfl),
   (C7_uniform_results (some [255]) (some []) none none none ⟨[], [], 0⟩).2.2.2.2
     [255] [] rfl rfl (by decide)⟩

/-- Witness for C8 on the concrete key and passphrase: the two successive
containers differ in salt, nonce and ciphertext, yet both decrypt to the
all-zero key. -/
theorem C8_freshness_witness :
    (((signer_create_container (some (List.replicate 32 49)) (some [112, 119])
        ⟨[], [], 0⟩).1.result.containerOf.getD ⟨0, [], [], [], []⟩).salt ≠
      ((signer_create_container (some (List.replicate 32 49)) (some [112, 119])
        ((signer_create_container (some (List.replicate 32 49)) (some [112, 119])
          ⟨[], [], 0⟩).2)).1.result.containerOf.getD ⟨0, [], [], [], []⟩).salt) ∧
    (((signer_create_container (some (List.replicate 32 49)) (some [112, 119])
        ⟨[], [], 0⟩).1.result.containerOf.getD ⟨0, [], [], [], []⟩).nonce ≠
      ((signer_create_container (some (List.replicate 32 49)) (some [112, 119])
        ((signer_create_container (some (List.replicate 32 49)) (some [112, 119])
          ⟨[], [], 0⟩).2)).1.result.containerOf.getD ⟨0, [], [], [], []⟩).nonce) ∧
    (((signer_create_container (some (List.replicate 32 49)) (some [112, 119])
        ⟨[], [], 0⟩).1.result.containerOf.getD ⟨0, [], [], [], []⟩).ciphertext ≠
      ((signer_create_container (some (List.replicate 32 49)) (some [112, 119])
        ((signer_create_container (some (List.replicate 32 49)) (some [112, 119])
          ⟨[], [], 0⟩).2)).1.result.containerOf.getD ⟨0, [], [], [], []⟩).ciphertext) ∧
    aeadOpen (kdfDerive [112, 119]
        (((signer_create_container (some (List.replicate 32 49)) (some [112, 119])
          ⟨[], [], 0⟩).1.result.containerOf.getD ⟨0, [], [], [], []⟩).salt))
      (((signer_create_container (some (List.replicate 32 49)) (some [112, 119])
        ⟨[], [], 0⟩).1.result.containerOf.getD ⟨0, [], [], [], []⟩).nonce)
      (((signer_create_container (some (List.replicate 32 49)) (some [112, 119])
        ⟨[], [], 0⟩).1.result.containerOf.getD ⟨0, [], [], [], []⟩).ciphertext) =
      some (List.replicate 32 0) ∧
    aeadOpen (kdfDerive [112, 119]
        (((signer_create_container (some (List.replicate 32 49)) (some [112, 119])
          ((signer_create_container (some (List.replicate 32 49)) (some [112, 119])
            ⟨[], [], 0⟩).2)).1.result.containerOf.getD ⟨0, [], [], [], []⟩).salt))
      (((signer_create_container (some (List.replicate 32 49)) (some [112, 119])
        ((signer_create_container (some (List.replicate 32 49)) (some [112, 119])
          ⟨[], [], 0⟩).2)).1.result.containerOf.getD ⟨0, [], [], [], []⟩).nonce)
      (((signer_create_container (some (List.replicate 32 49)) (some [112, 119])
        ((signer_create_container (some (List.replicate 32 49)) (some [112, 119])
          ⟨[], [], 0⟩).2)).1.result.containerOf.getD ⟨0, [], [], [], []⟩).ciphertext) =
      some (List.replicate 32 0) :=
  C8_freshness (List.replicate 32 49) [112, 119] (List.replicate 32 0) ⟨[], [], 0⟩
    ((signer_create_container (some (List.replicate 32 49)) (some [112, 119])
      ⟨[], [], 0⟩).1.result.containerOf.getD ⟨0, [], [], [], []⟩)
    ((signer_create_container (some (List.replicate 32 49)) (some [112, 119])
      ((signer_create_container (some (List.replicate 32 49)) (some [112, 119])
        ⟨[], [], 0⟩).2)).1.result.containerOf.getD ⟨0, [], [], [], []⟩)
    (by decide) (by decide) (by decide) (by decide) (by decide) (by decide)

end ColdStar
